import Mathlib

/-!
Verification of the blog platform's content query/pagination engine, slug
generator, post store operations and client-side API proxy. The definitions
below are shallow embeddings of `src/server.js` and `src/src/lib/api.ts`:
timestamps are natural numbers, JavaScript numbers arising from `parseInt`
are integers, and fallible handlers return `Option`/`Except`.
-/

/-- JavaScript whitespace class `\s`, restricted to the ASCII whitespace
characters (space, tab, line feed, vertical tab, form feed, carriage
return); the full JavaScript class additionally contains Unicode space
characters, none of which occur in this development. -/
def jsWs (c : Char) : Bool :=
  c == ' ' || c == '\t' || c == '\n' || c == '\x0b' || c == '\x0c' || c == '\r'

/-- Characters surviving the removal step `replace(/[^a-z0-9\s-]/g, '')` of
`generateSlug` (src/server.js lines 73-80): lowercase ASCII letters, digits,
whitespace and the hyphen. -/
def keepSlugChar (c : Char) : Bool :=
  ('a' ≤ c && c ≤ 'z') || ('0' ≤ c && c ≤ '9') || jsWs c || c == '-'

/-- Hyphen test, the character class of the regex `-+`. -/
def isDash (c : Char) : Bool := c == '-'

/-- JavaScript `String.prototype.toLowerCase` per character, restricted to
the ASCII mapping (the only part this development relies on). -/
def jsToLowerChar (c : Char) : Char :=
  if 'A' ≤ c ∧ c ≤ 'Z' then Char.ofNat (c.toNat + 32) else c

/-- Lowercase a string per character, modelling JavaScript `toLowerCase`. -/
def jsToLower (s : String) : String := String.mk (s.toList.map jsToLowerChar)

/-- Replace every maximal run of characters satisfying `p` by the single
character `rep`: the semantics of the global replacements of `\s+` and of
`-+` by a hyphen in `generateSlug`. -/
def collapseRuns (p : Char → Bool) (rep : Char) : List Char → List Char
  | [] => []
  | [c] => if p c then [rep] else [c]
  | c :: d :: rest =>
    if p c && p d then collapseRuns p rep (d :: rest)
    else (if p c then rep else c) :: collapseRuns p rep (d :: rest)

/-- JavaScript `String.prototype.trim`: remove leading and trailing
whitespace (and only whitespace). -/
def jsTrim (l : List Char) : List Char :=
  ((l.dropWhile jsWs).reverse.dropWhile jsWs).reverse

/-- Slug generator `generateSlug` of src/server.js lines 73-80, identical to
`BlogAPI.generateSlug` of src/src/lib/api.ts lines 159-166: lowercase the
title, delete every character matching `[^a-z0-9\s-]`, replace each
whitespace run by a hyphen, collapse hyphen runs, then `trim()`. -/
def generateSlug (title : String) : String :=
  String.mk (jsTrim (collapseRuns isDash '-' (collapseRuns jsWs '-'
    ((title.toList.map jsToLowerChar).filter keepSlugChar))))

/-- Test that `needle` begins `hay`, over character lists. -/
def charsStart : List Char → List Char → Bool
  | _, [] => true
  | [], _ :: _ => false
  | a :: hay, b :: needle => a == b && charsStart hay needle

/-- Occurrence of `needle` as a contiguous run inside `hay`, the semantics
of JavaScript `String.prototype.includes`. -/
def charsHave (needle : List Char) : List Char → Bool
  | [] => charsStart [] needle
  | c :: rest => charsStart (c :: rest) needle || charsHave needle rest

/-- JavaScript `hay.includes(needle)`. -/
def jsIncludes (hay needle : String) : Bool := charsHave needle.toList hay.toList

/-- Truthiness of an optional string: JavaScript treats `undefined` and the
empty string as falsy. -/
def truthyStr : Option String → Bool
  | none => false
  | some s => !(s == "")

/-- Post record: the document shape created by `POST /api/posts`
(src/server.js lines 226-237) and the client `BlogPost` interface
(src/src/lib/api.ts lines 2-14). Timestamps are natural numbers and
`published_at` is `none` for the stored `null`. -/
structure Post where
  id : String
  title : String
  slug : String
  content : String
  excerpt : Option String
  featured_image : Option String
  tags : List String
  published : Bool
  published_at : Option Nat
  created_at : Nat
  updated_at : Nat
  deriving DecidableEq

/-- Comparator of the MongoDB sort specification `{ published_at: -1,
created_at: -1 }` used by `GET /api/posts` (src/server.js line 154):
`published_at` descending with the stored `null` ordered below every
timestamp, ties broken by `created_at` descending. `postBefore a b` states
that `a` may appear no later than `b` in the returned order. -/
def postBefore (a b : Post) : Bool :=
  match a.published_at, b.published_at with
  | some x, some y =>
    if x == y then decide (b.created_at ≤ a.created_at) else decide (y < x)
  | some _, none => true
  | none, some _ => false
  | none, none => decide (b.created_at ≤ a.created_at)

/-- Insertion into a list sorted by `postBefore`. -/
def insertPost (a : Post) : List Post → List Post
  | [] => [a]
  | b :: rest => if postBefore a b then a :: b :: rest else b :: insertPost a rest

/-- Stable sort by `postBefore`, modelling the order MongoDB returns for the
sort specification above. -/
def sortPosts : List Post → List Post
  | [] => []
  | a :: rest => insertPost a (sortPosts rest)

/-- Request to `GET /api/posts` after the destructuring of src/server.js
lines 112-118 and the `parseInt` calls of lines 146-147: `page` and
`pageSize` are the parsed integers (defaults 1 and 10; non-numeric input is
outside the model), `tags` is the `tagArray` of line 134 when the parameter
is present, and `published` is the raw query string when present. -/
structure PostsReq where
  page : Int
  pageSize : Int
  search : Option String
  tags : Option (List String)
  published : Option String
  deriving DecidableEq

/-- Case-insensitive containment: the effect of the MongoDB condition
`{ $regex: search, $options: 'i' }` (src/server.js lines 127-129) for plain
search texts, which are passed verbatim as the pattern (patterns containing
regex metacharacters are outside the model). The client mock engine performs
the same test literally via `toLowerCase().includes(...)`
(src/src/lib/api.ts lines 394-399). -/
def ciContains (field search : String) : Bool :=
  jsIncludes (jsToLower field) (jsToLower search)

/-- Filter predicate built by `GET /api/posts` (src/server.js lines
123-140): when `search` is truthy, `$or` of regex matches on title, content
and excerpt (a match against an absent `excerpt` field fails); when `tags`
is present, `{ $in: tagArray }` on the post's tag array; when `published` is
present, equality with the comparison `published === 'true'`. -/
def matchesQuery (req : PostsReq) (p : Post) : Bool :=
  (match req.search with
   | some s =>
     if s == "" then true
     else
       ciContains p.title s || ciContains p.content s ||
         (match p.excerpt with
          | some e => ciContains e s
          | none => false)
   | none => true) &&
  (match req.tags with
   | some ts => p.tags.any (fun t => ts.contains t)
   | none => true) &&
  (match req.published with
   | some s => p.published == (s == "true")
   | none => true)

/-- JavaScript `Math.ceil(total / pageSize)` (src/server.js line 149 and
src/src/lib/api.ts line 411) for a non-negative `total` and an integer
`pageSize`; `none` models the non-finite numbers (`Infinity`/`NaN`)
produced when `pageSize` is zero. -/
def jsCeilPages (total : Nat) (pageSize : Int) : Option Int :=
  if pageSize == 0 then none
  else some (-(Int.fdiv (-(total : Int)) pageSize))

/-- Response of the query engine, `{ posts, total, page, pageSize,
totalPages }`. `totalPages` is `none` exactly when the JavaScript value is
non-finite. -/
structure PostsResponse where
  posts : List Post
  total : Nat
  page : Int
  pageSize : Int
  totalPages : Option Int
  deriving DecidableEq

/-- Handler of `GET /api/posts` (src/server.js lines 110-170) over a store
given as the list of documents of the `posts` collection. MongoDB semantics
used: `countDocuments` counts the matching documents; `sort` orders by the
`postBefore` comparator; `skip` raises on a negative argument (the handler's
catch turns this into the 500 response, modelled as `Except.error`);
`limit(0)` imposes no limit, while `limit(n)` returns at most `|n|`
documents. -/
def apiGetPosts (store : List Post) (req : PostsReq) : Except Unit PostsResponse :=
  let query := matchesQuery req
  let total := (store.filter query).length
  let skip : Int := (req.page - 1) * req.pageSize
  let totalPages := jsCeilPages total req.pageSize
  if skip < 0 then Except.error ()
  else
    let sorted := sortPosts (store.filter query)
    let limited :=
      if req.pageSize == 0 then sorted.drop skip.toNat
      else (sorted.drop skip.toNat).take req.pageSize.natAbs
    Except.ok
      { posts := limited, total := total, page := req.page,
        pageSize := req.pageSize, totalPages := totalPages }

/-- Body of `POST /api/posts` after the destructuring of src/server.js line
217: absent fields are `none` (the defaults `tags = []` and
`published = false` are applied in `createPost`). -/
structure CreateReq where
  title : Option String
  content : Option String
  excerpt : Option String
  tags : Option (List String)
  featured_image : Option String
  published : Option Bool
  deriving DecidableEq

/-- Handler of `POST /api/posts` (src/server.js lines 213-247): reject when
`title` or `content` is falsy (the 400 response, modelled as `none`);
otherwise build the document with the slug derived from the title, one
creation timestamp `now` for `created_at` and `updated_at`, and
`published_at` equal to `now` exactly when the requested `published` value
is truthy. -/
def createPost (r : CreateReq) (now : Nat) : Option Post :=
  if !(truthyStr r.title && truthyStr r.content) then none
  else
    let title := r.title.getD ""
    let content := r.content.getD ""
    let published := r.published.getD false
    some
      { id := ""
        title := title
        slug := generateSlug title
        content := content
        excerpt := some (r.excerpt.getD "")
        featured_image := some (r.featured_image.getD "")
        tags := r.tags.getD []
        published := published
        published_at := if published then some now else none
        created_at := now
        updated_at := now }

/-- Body of `PUT /api/posts/:id` after the destructuring of src/server.js
line 257: absent fields are `none`. -/
structure UpdateReq where
  title : Option String
  content : Option String
  excerpt : Option String
  tags : Option (List String)
  featured_image : Option String
  published : Option Bool
  deriving DecidableEq

/-- Update document assembled by `PUT /api/posts/:id`: the fields of the
`$set` object, `none` when never assigned. -/
structure UpdateData where
  updated_at : Nat
  title : Option String
  slug : Option String
  content : Option String
  excerpt : Option String
  tags : Option (List String)
  featured_image : Option String
  published : Option Bool
  published_at : Option Nat
  deriving DecidableEq

/-- Construction of `updateData` exactly as src/server.js lines 259-276
performs it: start from `{ updated_at: now }`, then conditionally assign
each supplied field (a falsy `title` is skipped; a truthy one also
re-derives the slug). The publish branch guards the `published_at` stamp
with `!updateData.published_at`, which consults the update object built so
far — an object that never carries `published_at` at that point — and not
the stored post. -/
def buildUpdateData (r : UpdateReq) (now : Nat) : UpdateData :=
  let u : UpdateData :=
    { updated_at := now, title := none, slug := none, content := none,
      excerpt := none, tags := none, featured_image := none,
      published := none, published_at := none }
  let u := match r.title with
    | some t =>
      if t == "" then u
      else { u with title := some t, slug := some (generateSlug t) }
    | none => u
  let u := match r.content with
    | some c => { u with content := some c }
    | none => u
  let u := match r.excerpt with
    | some e => { u with excerpt := some e }
    | none => u
  let u := match r.tags with
    | some ts => { u with tags := some ts }
    | none => u
  let u := match r.featured_image with
    | some f => { u with featured_image := some f }
    | none => u
  let u := match r.published with
    | some b =>
      let u := { u with published := some b }
      if b && (u.published_at == none) then { u with published_at := some now }
      else u
    | none => u
  u

/-- MongoDB `$set` application (src/server.js lines 278-281): fields present
in the update document replace the stored values. -/
def applyUpdate (p : Post) (u : UpdateData) : Post :=
  { p with
    updated_at := u.updated_at
    title := u.title.getD p.title
    slug := u.slug.getD p.slug
    content := u.content.getD p.content
    excerpt := match u.excerpt with
      | some e => some e
      | none => p.excerpt
    tags := u.tags.getD p.tags
    featured_image := match u.featured_image with
      | some f => some f
      | none => p.featured_image
    published := u.published.getD p.published
    published_at := match u.published_at with
      | some t => some t
      | none => p.published_at }

/-- Effect of `PUT /api/posts/:id` (src/server.js lines 250-293) on the
matched post. -/
def updatePost (p : Post) (r : UpdateReq) (now : Nat) : Post :=
  applyUpdate p (buildUpdateData r now)
/-- Mock fixture post 1 from `BlogAPI.getMockPosts` (src/src/lib/api.ts). -/
def mockPost1 : Post where
  id := "1"
  title := "Getting Started with Modern Web Development"
  slug := "getting-started-modern-web-development"
  content := "# Welcome to Modern Web Development\n\nWeb development has evolved tremendously over the past few years. In this comprehensive guide, we\x27ll explore the latest trends, tools, and best practices that every developer should know.\n\n## The Current Landscape\n\nThe web development ecosystem is more vibrant than ever. With frameworks like React, Vue, and Angular leading the frontend space, and Node.js, Python, and Go powering backends, developers have unprecedented choice and flexibility.\n\n### Key Technologies to Master\n\n- **Frontend Frameworks**: React, Vue.js, Angular\n- **Backend Technologies**: Node.js, Python, Go, Rust\n- **Databases**: MongoDB, PostgreSQL, Redis\n- **Cloud Platforms**: AWS, Google Cloud, Azure\n\n## Best Practices\n\n1. **Performance First**: Always optimize for speed and user experience\n2. **Mobile Responsive**: Design for mobile-first approach\n3. **Accessibility**: Ensure your applications are accessible to all users\n4. **Security**: Implement proper authentication and data protection\n\nThe future of web development is bright, and there\x27s never been a better time to start your journey!"
  excerpt := some "Explore the latest trends and best practices in modern web development, from frontend frameworks to backend technologies."
  featured_image := some "https://images.pexels.com/photos/11035380/pexels-photo-11035380.jpeg?auto=compress&cs=tinysrgb&w=1260&h=750&dpr=2"
  tags := ["web development", "programming", "technology", "tutorial"]
  published := true
  published_at := some 20240115
  created_at := 20240115
  updated_at := 20240115

/-- Mock fixture post 2 from `BlogAPI.getMockPosts` (src/src/lib/api.ts). -/
def mockPost2 : Post where
  id := "2"
  title := "The Art of Database Design"
  slug := "art-of-database-design"
  content := "# Mastering Database Design\n\nDatabase design is both an art and a science. A well-designed database can make the difference between a fast, scalable application and one that struggles under load.\n\n## Fundamental Principles\n\n### 1. Normalization\nNormalization helps eliminate data redundancy and ensures data integrity. Understanding the different normal forms is crucial for any database designer.\n\n### 2. Indexing Strategy\nProper indexing can dramatically improve query performance. However, over-indexing can slow down write operations.\n\n### 3. Relationships\nUnderstanding how to model relationships between entities is fundamental to good database design.\n\n## MongoDB vs SQL Databases\n\n### MongoDB Advantages:\n- Flexible schema design\n- Horizontal scaling capabilities\n- JSON-like document storage\n- Great for rapid prototyping\n\n### SQL Database Advantages:\n- ACID compliance\n- Mature ecosystem\n- Complex query capabilities\n- Strong consistency guarantees\n\n## Performance Optimization Tips\n\n1. **Query Optimization**: Write efficient queries and use explain plans\n2. **Connection Pooling**: Manage database connections effectively\n3. **Caching**: Implement appropriate caching strategies\n4. **Monitoring**: Keep track of database performance metrics\n\nRemember, the best database design is one that serves your application\x27s specific needs while maintaining performance and scalability."
  excerpt := some "Learn the fundamental principles of database design and discover best practices for creating efficient, scalable data architectures."
  featured_image := some "https://images.pexels.com/photos/1181677/pexels-photo-1181677.jpeg?auto=compress&cs=tinysrgb&w=1260&h=750&dpr=2"
  tags := ["database", "mongodb", "sql", "design", "performance"]
  published := true
  published_at := some 20240110
  created_at := 20240110
  updated_at := 20240110

/-- Mock fixture post 3 from `BlogAPI.getMockPosts` (src/src/lib/api.ts). -/
def mockPost3 : Post where
  id := "3"
  title := "Building Responsive User Interfaces"
  slug := "building-responsive-user-interfaces"
  content := "# Creating Beautiful, Responsive UIs\n\nUser interface design has become increasingly important as users expect seamless experiences across all devices. Let\x27s explore how to build interfaces that work everywhere.\n\n## Mobile-First Approach\n\nStarting with mobile design constraints forces you to prioritize content and functionality. This approach typically results in cleaner, more focused designs.\n\n### Key Principles:\n- **Progressive Enhancement**: Start simple, add complexity\n- **Touch-Friendly**: Design for finger navigation\n- **Performance**: Optimize for slower connections\n- **Content Priority**: Show what matters most\n\n## CSS Grid and Flexbox\n\nModern CSS layout tools have revolutionized how we approach responsive design.\n\n### CSS Grid\nPerfect for two-dimensional layouts:\n\x60\x60\x60css\n.grid-container \x7b\n  display: grid;\n  grid-template-columns: repeat(auto-fit, minmax(300px, 1fr));\n  gap: 2rem;\n\x7d\n\x60\x60\x60\n\n### Flexbox\nIdeal for one-dimensional layouts:\n\x60\x60\x60css\n.flex-container \x7b\n  display: flex;\n  justify-content: space-between;\n  align-items: center;\n  flex-wrap: wrap;\n\x7d\n\x60\x60\x60\n\n## Animation and Micro-interactions\n\nSubtle animations can greatly enhance user experience:\n\n1. **Loading States**: Keep users informed during wait times\n2. **Hover Effects**: Provide visual feedback\n3. **Transitions**: Smooth state changes\n4. **Progressive Disclosure**: Reveal information gradually\n\n## Accessibility Considerations\n\n- **Semantic HTML**: Use proper HTML elements\n- **Color Contrast**: Ensure sufficient contrast ratios\n- **Keyboard Navigation**: Support keyboard-only users\n- **Screen Readers**: Provide appropriate ARIA labels\n\nBuilding great user interfaces requires balancing aesthetics, functionality, and accessibility. The best interfaces are often invisible to users \u2013 they just work."
  excerpt := some "Master the art of creating responsive, accessible user interfaces that provide exceptional user experiences across all devices."
  featured_image := some "https://images.pexels.com/photos/196644/pexels-photo-196644.jpeg?auto=compress&cs=tinysrgb&w=1260&h=750&dpr=2"
  tags := ["ui design", "responsive", "css", "accessibility", "frontend"]
  published := true
  published_at := some 20240105
  created_at := 20240105
  updated_at := 20240105

/-- Fixture dataset of `BlogAPI.getMockPosts` (src/src/lib/api.ts lines
236-389). -/
def mockPosts : List Post := [mockPost1, mockPost2, mockPost3]

/-- Search predicate of `getMockPosts` (src/src/lib/api.ts lines 393-400):
the search text is lowercased once, then tested with `includes` against the
lowercased title, content, and — when present — excerpt. -/
def mockSearchMatches (searchLower : String) (post : Post) : Bool :=
  jsIncludes (jsToLower post.title) searchLower ||
  jsIncludes (jsToLower post.content) searchLower ||
  (match post.excerpt with
   | some e => jsIncludes (jsToLower e) searchLower
   | none => false)

/-- Tag predicate of `getMockPosts` (src/src/lib/api.ts lines 403-407): the
post appears when some requested tag occurs among its tags. -/
def mockTagMatches (tags : List String) (post : Post) : Bool :=
  tags.any (fun tag => post.tags.contains tag)

/-- Query accepted by `BlogAPI.getPosts` and `getMockPosts` after the
destructuring defaults `page = 1`, `pageSize = 10` (src/src/lib/api.ts
lines 34-39 and 235). -/
structure BlogPostQuery where
  page : Int
  pageSize : Int
  search : Option String
  tags : Option (List String)
  deriving DecidableEq

/-- JavaScript `Array.prototype.slice` index resolution: a negative index
counts from the end; results are clamped to `[0, length]`. -/
def jsSliceIdx (i : Int) (len : Nat) : Nat :=
  if i < 0 then ((len : Int) + i).toNat else min i.toNat len

/-- JavaScript `l.slice(start, stop)`. -/
def jsSlice (l : List Post) (start stop : Int) : List Post :=
  let s := jsSliceIdx start l.length
  let e := jsSliceIdx stop l.length
  (l.drop s).take (e - s)

/-- Client mock engine `BlogAPI.getMockPosts` (src/src/lib/api.ts lines
235-422): filter the fixture dataset by search and tags, then paginate with
`slice(start, start + pageSize)` where `start = (page - 1) * pageSize`, and
report `Math.ceil(total / pageSize)` as `totalPages`. -/
def getMockPosts (q : BlogPostQuery) : PostsResponse :=
  let filtered1 :=
    if truthyStr q.search then
      mockPosts.filter (mockSearchMatches (jsToLower (q.search.getD "")))
    else mockPosts
  let filtered2 := match q.tags with
    | some ts => if ts.length > 0 then filtered1.filter (mockTagMatches ts) else filtered1
    | none => filtered1
  let total := filtered2.length
  let totalPages := jsCeilPages total q.pageSize
  let start := (q.page - 1) * q.pageSize
  let paginated := jsSlice filtered2 start (start + q.pageSize)
  { posts := paginated, total := total, page := q.page,
    pageSize := q.pageSize, totalPages := totalPages }

/-- JavaScript runtime errors surfaced by the client proxy. -/
inductive JsError
  | typeError
  deriving DecidableEq

/-- Call wrapper for `getMockPosts` reflecting JavaScript parameter
destructuring: `BlogAPI.getMockAllPosts` (src/src/lib/api.ts line 430)
invokes `this.getMockPosts()` with no argument, and destructuring
`\x7b page = 1, ... \x7d` of `undefined` throws a `TypeError` before the
body runs; the argument `none` models that call. -/
def getMockPostsJS : Option BlogPostQuery → Except JsError PostsResponse
  | none => Except.error JsError.typeError
  | some q => Except.ok (getMockPosts q)

/-- Client function `BlogAPI.getMockAllPosts` (src/src/lib/api.ts lines 429-432): the
`posts` of an argument-less `getMockPosts()` call. -/
def getMockAllPosts : Except JsError (List Post) :=
  (getMockPostsJS none).map (fun r => r.posts)

/-- Client function `BlogAPI.getMockPostBySlug` (src/src/lib/api.ts lines 424-427). -/
def getMockPostBySlug (slug : String) : Except JsError (Option Post) :=
  getMockAllPosts.map (fun posts => posts.find? (fun post => post.slug == slug))

/-- Success test of a `fetch` response status (`response.ok`). -/
def responseOk (status : Nat) : Bool := 200 ≤ status && status < 300

/-- Client function `BlogAPI.getPosts` (src/src/lib/api.ts lines 34-63) over an explicit
fetch outcome (`none` is a network failure; otherwise the status and parsed
body): a 2xx response returns its body; a non-2xx response (the `throw` on
`!response.ok`) and a network failure both land in the `catch`, which
returns `getMockPosts` on the same query. -/
def getPosts (q : BlogPostQuery) (fetched : Option (Nat × PostsResponse)) :
    PostsResponse :=
  match fetched with
  | some (status, body) => if responseOk status then body else getMockPosts q
  | none => getMockPosts q

/-- Client function `BlogAPI.getAllPosts` (src/src/lib/api.ts lines 85-100) over an explicit
fetch outcome: on a non-2xx response or a network failure the `catch` calls
`getMockAllPosts`, whose argument-less `getMockPosts()` call throws. -/
def getAllPosts (fetched : Option (Nat × List Post)) : Except JsError (List Post) :=
  match fetched with
  | some (status, body) => if responseOk status then Except.ok body else getMockAllPosts
  | none => getMockAllPosts

/-- Client function `BlogAPI.getPostBySlug` (src/src/lib/api.ts lines 65-83) over an
explicit fetch outcome: status 404 returns `null` directly; any other
non-2xx status and a network failure fall back to `getMockPostBySlug`. -/
def getPostBySlug (slug : String) (fetched : Option (Nat × Option Post)) :
    Except JsError (Option Post) :=
  match fetched with
  | some (status, body) =>
    if status == 404 then Except.ok none
    else if responseOk status then Except.ok body
    else getMockPostBySlug slug
  | none => getMockPostBySlug slug

/-- Example post published on day 1, for the C2 ordering scenario. -/
def postDay1 : Post :=
  { id := "d1", title := "day one", slug := "day-one", content := "one",
    excerpt := none, featured_image := none, tags := [], published := true,
    published_at := some 1, created_at := 1, updated_at := 1 }

/-- Example post published on day 2, for the C2 ordering scenario. -/
def postDay2 : Post :=
  { id := "d2", title := "day two", slug := "day-two", content := "two",
    excerpt := none, featured_image := none, tags := [], published := true,
    published_at := some 2, created_at := 2, updated_at := 2 }

/-- Example post published on day 3, for the C2 ordering scenario. -/
def postDay3 : Post :=
  { id := "d3", title := "day three", slug := "day-three", content := "three",
    excerpt := none, featured_image := none, tags := [], published := true,
    published_at := some 3, created_at := 3, updated_at := 3 }

/-- Example stored post for the update scenarios: published on day 1. -/
def storedPublishedPost : Post :=
  { id := "s1", title := "stored", slug := "stored", content := "body",
    excerpt := some "", featured_image := some "", tags := ["t"],
    published := true, published_at := some 1, created_at := 1,
    updated_at := 1 }

/-- Update request that re-submits `published: true` and nothing else. -/
def republishReq : UpdateReq :=
  { title := none, content := none, excerpt := none, tags := none,
    featured_image := none, published := some true }

/-- Occurrence of the search text `s` as a case-insensitive substring of
`field`, stated independently of the `includes` implementation: the
lowercased field splits around the lowercased search text. -/
def ciOccurs (s field : String) : Prop :=
  ∃ pre suf, (jsToLower field).toList = pre ++ ((jsToLower s).toList ++ suf)

/-- Absence of two adjacent characters both satisfying `p`. -/
def noAdjPair (p : Char → Bool) : List Char → Bool
  | [] => true
  | [_] => true
  | c :: d :: rest => (!(p c && p d)) && noAdjPair p (d :: rest)

/-- Default request of `GET /api/posts` with no filters. -/
def defaultReq : PostsReq :=
  { page := 1, pageSize := 10, search := none, tags := none,
    published := none }

/-- Response of the default request on an empty store. -/
def emptyResp10 : PostsResponse :=
  { posts := [], total := 0, page := 1, pageSize := 10, totalPages := some 0 }

/-- Request with `pageSize = 0` for the C4 scenario. -/
def zeroPageSizeReq : PostsReq :=
  { page := 1, pageSize := 0, search := none, tags := none,
    published := none }

/-- Update request that only unpublishes (`published: false`). -/
def unpublishReq : UpdateReq :=
  { title := none, content := none, excerpt := none, tags := none,
    featured_image := none, published := some false }

/-- Simple creation request with `published: true`, for the C10 witness. -/
def createReqSimple : CreateReq :=
  { title := some "T", content := some "c", excerpt := none, tags := none,
    featured_image := none, published := some true }

/-- Document that `createPost createReqSimple 4` stores. -/
def createdPostSimple : Post :=
  { id := "", title := "T", slug := "t", content := "c", excerpt := some "",
    featured_image := some "", tags := [], published := true,
    published_at := some 4, created_at := 4, updated_at := 4 }

/-! ## Substring characterization -/

theorem charsStart_iff (hay needle : List Char) :
    charsStart hay needle = true ↔ ∃ suf, hay = needle ++ suf := by
  induction needle generalizing hay with
  | nil => simp [charsStart]
  | cons b bs ih =>
    cases hay with
    | nil => simp [charsStart]
    | cons a as => simp [charsStart, ih]

theorem charsHave_iff (needle hay : List Char) :
    charsHave needle hay = true ↔ ∃ pre suf, hay = pre ++ (needle ++ suf) := by
  induction hay with
  | nil =>
    simp only [charsHave, charsStart_iff]
    constructor
    · rintro ⟨suf, h⟩
      exact ⟨[], suf, by simpa using h⟩
    · rintro ⟨pre, suf, h⟩
      rcases List.append_eq_nil.mp h.symm with ⟨h1, h2⟩
      rcases List.append_eq_nil.mp h2 with ⟨h3, h4⟩
      exact ⟨suf, by simp [h3, h4]⟩
  | cons c rest ih =>
    simp only [charsHave, Bool.or_eq_true, charsStart_iff, ih]
    constructor
    · rintro (⟨suf, h⟩ | ⟨pre, suf, h⟩)
      · exact ⟨[], suf, by simpa using h⟩
      · exact ⟨c :: pre, suf, by simp [h]⟩
    · rintro ⟨pre, suf, h⟩
      cases pre with
      | nil => exact Or.inl ⟨suf, by simpa using h⟩
      | cons c' pre' =>
        rcases List.cons_eq_cons.mp (by simpa using h) with ⟨rfl, h2⟩
        exact Or.inr ⟨pre', suf, h2⟩

theorem jsIncludes_iff (hay needle : String) :
    jsIncludes hay needle = true ↔
      ∃ pre suf, hay.toList = pre ++ (needle.toList ++ suf) := by
  simpa [jsIncludes] using charsHave_iff needle.toList hay.toList

theorem ciContains_iff (field s : String) :
    ciContains field s = true ↔ ciOccurs s field := by
  simpa [ciContains, ciOccurs] using jsIncludes_iff (jsToLower field) (jsToLower s)

/-! ## Runs of characters -/

theorem mem_collapseRuns {p : Char → Bool} {rep c : Char} :
    ∀ {l : List Char}, c ∈ collapseRuns p rep l → c = rep ∨ c ∈ l := by
  intro l
  induction l with
  | nil => simp [collapseRuns]
  | cons a rest ih =>
    cases rest with
    | nil =>
      simp only [collapseRuns]
      split
      · intro h
        rcases List.mem_singleton.mp h with rfl
        exact Or.inl rfl
      · intro h
        rcases List.mem_singleton.mp h with rfl
        exact Or.inr (List.mem_singleton.mpr rfl)
    | cons d rest2 =>
      simp only [collapseRuns]
      split
      · intro h
        rcases ih h with h | h
        · exact Or.inl h
        · exact Or.inr (List.mem_cons_of_mem _ h)
      · intro h
        rcases List.mem_cons.mp h with h | h
        · subst h
          split
          · exact Or.inl rfl
          · exact Or.inr (List.mem_cons_self _ _)
        · rcases ih h with h | h
          · exact Or.inl h
          · exact Or.inr (List.mem_cons_of_mem _ h)

theorem collapseRuns_not_p {p : Char → Bool} {rep : Char} (hrep : p rep = false) :
    ∀ {l : List Char} {c : Char}, c ∈ collapseRuns p rep l → p c = false := by
  intro l
  induction l with
  | nil => simp [collapseRuns]
  | cons a rest ih =>
    cases rest with
    | nil =>
      intro c
      simp only [collapseRuns]
      split
      · intro h
        rcases List.mem_singleton.mp h with rfl
        exact hrep
      · intro h
        rcases List.mem_singleton.mp h with rfl
        simp_all
    | cons d rest2 =>
      intro c
      simp only [collapseRuns]
      split
      · exact fun h => ih h
      · intro h
        rcases List.mem_cons.mp h with h | h
        · subst h
          split
          · exact hrep
          · simp_all
        · exact ih h

theorem collapseRuns_eq_self {p : Char → Bool} {rep : Char} :
    ∀ {l : List Char}, (∀ c ∈ l, p c = false) → collapseRuns p rep l = l := by
  intro l
  induction l with
  | nil => simp [collapseRuns]
  | cons a rest ih =>
    intro hall
    have ha : p a = false := hall a (List.mem_cons_self _ _)
    cases rest with
    | nil => simp [collapseRuns, ha]
    | cons d rest2 =>
      have hd : p d = false := hall d (List.mem_cons_of_mem _ (List.mem_cons_self _ _))
      simp only [collapseRuns]
      rw [if_neg (by simp [ha])]
      rw [if_neg (by simp [ha])]
      rw [ih fun c hc => hall c (List.mem_cons_of_mem _ hc)]

theorem collapseRuns_cons_head {p : Char → Bool} {rep d : Char} (rest : List Char)
    (hd : p d = false) :
    ∃ tl, collapseRuns p rep (d :: rest) = d :: tl := by
  cases rest with
  | nil => exact ⟨[], by simp [collapseRuns, hd]⟩
  | cons e rest2 =>
    refine ⟨collapseRuns p rep (e :: rest2), ?_⟩
    simp only [collapseRuns]
    rw [if_neg (by simp [hd])]
    rw [if_neg (by simp [hd])]

theorem noAdjPair_cons {p : Char → Bool} {x : Char} {l : List Char}
    (hl : noAdjPair p l = true)
    (hh : ∀ h, l.head? = some h → (p x && p h) = false) :
    noAdjPair p (x :: l) = true := by
  cases l with
  | nil => simp [noAdjPair]
  | cons h t =>
    simp only [noAdjPair, Bool.and_eq_true]
    exact ⟨by simp [hh h rfl], hl⟩

theorem noAdjPair_collapseRuns {p : Char → Bool} {rep : Char} (_hrep : p rep = true) :
    ∀ l : List Char, noAdjPair p (collapseRuns p rep l) = true := by
  intro l
  induction l with
  | nil => simp [collapseRuns, noAdjPair]
  | cons a rest ih =>
    cases rest with
    | nil =>
      simp only [collapseRuns]
      split <;> simp [noAdjPair]
    | cons d rest2 =>
      simp only [collapseRuns]
      split
      · exact ih
      · rename_i hcond
        apply noAdjPair_cons ih
        intro h hhead
        by_cases hpa : p a = true
        · have hpd : p d = false := by
            by_cases hd : p d = true
            · exact absurd (by simp [hpa, hd]) hcond
            · simpa using hd
          rcases @collapseRuns_cons_head p rep d rest2 hpd with ⟨tl, htl⟩
          rw [htl] at hhead
          simp only [List.head?_cons, Option.some.injEq] at hhead
          subst hhead
          simp [hpd]
        · have hpa' : p a = false := by simpa using hpa
          simp [hpa']

theorem collapseRuns_eq_self_of_noAdj {p : Char → Bool} {rep : Char}
    (hp : ∀ c, p c = true → c = rep) :
    ∀ l : List Char, noAdjPair p l = true → collapseRuns p rep l = l := by
  intro l
  induction l with
  | nil => simp [collapseRuns]
  | cons a rest ih =>
    intro hna
    cases rest with
    | nil =>
      simp only [collapseRuns]
      split
      · rename_i hpa
        rw [hp a hpa]
      · rfl
    | cons d rest2 =>
      simp only [noAdjPair, Bool.and_eq_true] at hna
      obtain ⟨hnd, hna2⟩ := hna
      have hnd2 : (p a && p d) = false := by
        cases hx : (p a && p d) with
        | false => rfl
        | true => rw [hx] at hnd; exact absurd hnd (by decide)
      simp only [collapseRuns]
      rw [if_neg (by simp [hnd2])]
      rw [ih hna2]
      by_cases hpa : p a = true
      · rw [if_pos hpa, hp a hpa]
      · rw [if_neg hpa]

/-! ## Trim -/

theorem dropWhile_eq_self_of_none {p : Char → Bool} {l : List Char}
    (h : ∀ c ∈ l, p c = false) : l.dropWhile p = l := by
  cases l with
  | nil => rfl
  | cons a rest =>
    rw [List.dropWhile_cons, if_neg (by simp [h a (List.mem_cons_self _ _)])]

theorem jsTrim_eq_self {l : List Char} (h : ∀ c ∈ l, jsWs c = false) :
    jsTrim l = l := by
  unfold jsTrim
  rw [dropWhile_eq_self_of_none h]
  rw [dropWhile_eq_self_of_none (fun c hc => h c (List.mem_reverse.mp hc))]
  exact List.reverse_reverse l

/-! ## Character classes of slug output -/

theorem jsToLowerChar_fix {c : Char} (hk : keepSlugChar c = true) (hw : jsWs c = false) :
    jsToLowerChar c = c := by
  unfold jsToLowerChar
  rw [if_neg]
  rintro ⟨hA, hZ⟩
  unfold keepSlugChar at hk
  rw [hw] at hk
  simp only [Bool.or_eq_true, Bool.and_eq_true, decide_eq_true_eq, Bool.or_false,
    beq_iff_eq] at hk
  rcases hk with (⟨ha, hz⟩ | ⟨h0, h9⟩) | hdash
  · exact absurd (le_trans ha hZ) (by decide)
  · exact absurd (le_trans hA h9) (by decide)
  · rw [hdash] at hA
    exact absurd hA (by decide)

theorem map_eq_self_of_fix {α : Type} (f : α → α) :
    ∀ l : List α, (∀ c ∈ l, f c = c) → l.map f = l := by
  intro l
  induction l with
  | nil => simp
  | cons a rest ih =>
    intro h
    simp only [List.map_cons, h a (List.mem_cons_self _ _)]
    rw [ih fun c hc => h c (List.mem_cons_of_mem _ hc)]

/-! ## Slug pipeline facts -/

theorem slugCore_no_ws (l : List Char) :
    ∀ c ∈ collapseRuns isDash '-' (collapseRuns jsWs '-' l), jsWs c = false := by
  intro c hc
  rcases mem_collapseRuns hc with rfl | hc2
  · decide
  · exact collapseRuns_not_p (by decide) hc2

theorem generateSlug_eq_core (title : String) :
    generateSlug title = String.mk (collapseRuns isDash '-' (collapseRuns jsWs '-'
      ((title.toList.map jsToLowerChar).filter keepSlugChar))) := by
  unfold generateSlug
  rw [jsTrim_eq_self (slugCore_no_ws _)]

theorem slugCore_keep (l : List Char) :
    ∀ c ∈ collapseRuns isDash '-' (collapseRuns jsWs '-' (l.filter keepSlugChar)),
      keepSlugChar c = true := by
  intro c hc
  rcases mem_collapseRuns hc with rfl | hc2
  · decide
  · rcases mem_collapseRuns hc2 with rfl | hc3
    · decide
    · exact (List.mem_filter.mp hc3).2

theorem generateSlug_idem (x : String) :
    generateSlug (generateSlug x) = generateSlug x := by
  rw [generateSlug_eq_core x]
  set m := collapseRuns isDash '-' (collapseRuns jsWs '-'
    ((x.toList.map jsToLowerChar).filter keepSlugChar)) with hm
  have hws : ∀ c ∈ m, jsWs c = false := slugCore_no_ws _
  have hkeep : ∀ c ∈ m, keepSlugChar c = true := slugCore_keep _
  have hfix : ∀ c ∈ m, jsToLowerChar c = c := fun c hc =>
    jsToLowerChar_fix (hkeep c hc) (hws c hc)
  have hnadj : noAdjPair isDash m = true := noAdjPair_collapseRuns (by decide) _
  show String.mk (jsTrim (collapseRuns isDash '-' (collapseRuns jsWs '-'
    ((m.map jsToLowerChar).filter keepSlugChar)))) = String.mk m
  rw [map_eq_self_of_fix _ m hfix]
  rw [List.filter_eq_self.mpr hkeep]
  rw [collapseRuns_eq_self hws]
  rw [collapseRuns_eq_self_of_noAdj (fun c h => by simpa [isDash] using h) m hnadj]
  rw [jsTrim_eq_self hws]

/-! ## Order properties of the sort comparator -/

theorem postBefore_total (a b : Post) :
    postBefore a b = true ∨ postBefore b a = true := by
  unfold postBefore
  cases ha : a.published_at with
  | none =>
    cases hb : b.published_at with
    | none => simpa using Nat.le_total b.created_at a.created_at
    | some y => simp
  | some x =>
    cases hb : b.published_at with
    | none => simp
    | some y =>
      by_cases hxy : x = y
      · subst hxy
        simpa using Nat.le_total b.created_at a.created_at
      · have h1 : (x == y) = false := by simp [hxy]
        have h2 : (y == x) = false := by simp [Ne.symm hxy]
        simp only [h1, h2, Bool.false_eq_true, if_false, decide_eq_true_eq]
        omega

theorem postBefore_trans {a b c : Post} (hab : postBefore a b = true)
    (hbc : postBefore b c = true) : postBefore a c = true := by
  unfold postBefore at hab hbc ⊢
  cases ha : a.published_at with
  | none =>
    cases hb : b.published_at with
    | none =>
      cases hc : c.published_at with
      | none =>
        rw [ha, hb] at hab
        rw [hb, hc] at hbc
        simp only [decide_eq_true_eq] at hab hbc ⊢
        omega
      | some z =>
        rw [hb, hc] at hbc
        simp at hbc
    | some y =>
      rw [ha, hb] at hab
      simp at hab
  | some x =>
    cases hc : c.published_at with
    | none => simp
    | some z =>
      cases hb : b.published_at with
      | none =>
        rw [hb, hc] at hbc
        simp at hbc
      | some y =>
        rw [ha, hb] at hab
        rw [hb, hc] at hbc
        by_cases hxy : x = y
        · subst hxy
          by_cases hyz : x = z
          · subst hyz
            simp only [beq_self_eq_true, if_true, decide_eq_true_eq] at hab hbc ⊢
            omega
          · have h2 : (x == z) = false := by simp [hyz]
            simp only [beq_self_eq_true, if_true, h2, Bool.false_eq_true, if_false,
              decide_eq_true_eq] at hab hbc ⊢
            omega
        · have h1 : (x == y) = false := by simp [hxy]
          by_cases hyz : y = z
          · subst hyz
            have h2 : (x == y) = false := h1
            simp only [h1, beq_self_eq_true, if_true, Bool.false_eq_true, if_false,
              decide_eq_true_eq] at hab hbc ⊢
            omega
          · have h2 : (y == z) = false := by simp [hyz]
            have hxz : x ≠ z := by
              simp only [h1, h2, Bool.false_eq_true, if_false, decide_eq_true_eq] at hab hbc
              omega
            have h3 : (x == z) = false := by simp [hxz]
            simp only [h1, h2, h3, Bool.false_eq_true, if_false, decide_eq_true_eq]
              at hab hbc ⊢
            omega

theorem mem_insertPost {x a : Post} :
    ∀ {l : List Post}, x ∈ insertPost a l → x = a ∨ x ∈ l := by
  intro l
  induction l with
  | nil => simp [insertPost]
  | cons b rest ih =>
    simp only [insertPost]
    split
    · intro h
      rcases List.mem_cons.mp h with h | h
      · exact Or.inl h
      · exact Or.inr h
    · intro h
      rcases List.mem_cons.mp h with h | h
      · exact Or.inr (h ▸ List.mem_cons_self _ _)
      · rcases ih h with h | h
        · exact Or.inl h
        · exact Or.inr (List.mem_cons_of_mem _ h)

theorem pairwise_insertPost {a : Post} :
    ∀ {l : List Post}, l.Pairwise (fun u v => postBefore u v = true) →
      (insertPost a l).Pairwise (fun u v => postBefore u v = true) := by
  intro l
  induction l with
  | nil => simp [insertPost]
  | cons b rest ih =>
    intro hl
    rcases List.pairwise_cons.mp hl with ⟨hb, hrest⟩
    simp only [insertPost]
    split
    · rename_i hab
      refine List.pairwise_cons.mpr ⟨?_, hl⟩
      intro x hx
      rcases List.mem_cons.mp hx with rfl | hx
      · exact hab
      · exact postBefore_trans hab (hb x hx)
    · rename_i hab
      have hba : postBefore b a = true := by
        rcases postBefore_total a b with h | h
        · exact absurd h hab
        · exact h
      refine List.pairwise_cons.mpr ⟨?_, ih hrest⟩
      intro x hx
      rcases mem_insertPost hx with rfl | hx
      · exact hba
      · exact hb x hx

theorem pairwise_sortPosts (l : List Post) :
    (sortPosts l).Pairwise (fun u v => postBefore u v = true) := by
  induction l with
  | nil => simp [sortPosts]
  | cons a rest ih => exact pairwise_insertPost ih

/-! ## Ceiling arithmetic of totalPages -/

theorem jsCeilPages_eq_ceil (total : Nat) (ps : Int) (hps : 1 ≤ ps) :
    jsCeilPages total ps = some ⌈(total : ℚ) / (ps : ℚ)⌉ := by
  have hps0 : ps ≠ 0 := by omega
  unfold jsCeilPages
  rw [if_neg (by simpa using hps0)]
  congr 1
  rw [Int.fdiv_eq_ediv _ (by omega)]
  set t : ℤ := (total : ℤ) with ht
  set q : ℤ := (-t) / ps with hq
  have hdm : ps * q + (-t) % ps = -t := Int.ediv_add_emod (-t) ps
  have hr0 : 0 ≤ (-t) % ps := Int.emod_nonneg _ hps0
  have hrlt : (-t) % ps < ps := Int.emod_lt_of_pos _ (by omega)
  set r : ℤ := (-t) % ps with hrdef
  have hpsQ : (0 : ℚ) < (ps : ℚ) := by exact_mod_cast (by omega : (0 : ℤ) < ps)
  symm
  rw [Int.ceil_eq_iff]
  constructor
  · rw [lt_div_iff₀ hpsQ]
    have hZ : (-q - 1) * ps < t := by
      have hexp : (-q - 1) * ps = -(ps * q) - ps := by ring
      rw [hexp]
      omega
    have hZ2 : ((-q - 1) * ps : ℤ) < (total : ℤ) := by rw [ht] at hZ; exact hZ
    push_cast
    exact_mod_cast hZ2
  · rw [div_le_iff₀ hpsQ]
    have hZ : t ≤ (-q) * ps := by
      have hexp : (-q) * ps = -(ps * q) := by ring
      rw [hexp]
      omega
    have hZ2 : ((total : ℤ)) ≤ (-q) * ps := by rw [ht] at hZ; exact hZ
    exact_mod_cast hZ2

theorem ceil_div_eq_zero_iff (total : Nat) (ps : Int) (hps : 1 ≤ ps) :
    ⌈(total : ℚ) / (ps : ℚ)⌉ = 0 ↔ total = 0 := by
  have hpsQ : (0 : ℚ) < (ps : ℚ) := by exact_mod_cast (by omega : (0 : ℤ) < ps)
  constructor
  · intro h
    by_contra hne
    have h1 : (0 : ℚ) < (total : ℚ) / (ps : ℚ) := by
      apply div_pos _ hpsQ
      exact_mod_cast Nat.pos_of_ne_zero hne
    have h2 : 0 < ⌈(total : ℚ) / (ps : ℚ)⌉ := Int.ceil_pos.mpr h1
    omega
  · rintro rfl
    simp

/-! ## Claims -/

/-- C2: every successful response of the query engine lists its posts in the
order of the `postBefore` comparator — `published_at` descending with
`created_at` descending as tie-break, every null `published_at` after every
set value — and the three-post store published on day 1 / day 3 / day 2
comes back from an unpaginated query as day 3, day 2, day 1. -/
theorem c2_ordering :
    (∀ (store : List Post) (req : PostsReq) (resp : PostsResponse),
        apiGetPosts store req = Except.ok resp →
          resp.posts.Pairwise (fun u v => postBefore u v = true)) ∧
      (apiGetPosts [postDay1, postDay3, postDay2]
            { page := 1, pageSize := 10, search := none, tags := none,
              published := none }).map (fun r => r.posts) =
        Except.ok [postDay3, postDay2, postDay1] := by
  constructor
  · intro store req resp h
    simp only [apiGetPosts] at h
    split at h
    · exact absurd h (by simp)
    · rw [Except.ok.injEq] at h
      subst h
      dsimp only
      split
      · exact (pairwise_sortPosts _).sublist (List.drop_sublist _ _)
      · exact ((pairwise_sortPosts _).sublist (List.drop_sublist _ _)).sublist
          (List.take_sublist _ _)
  · rfl

/-- Witness for C2 at a concrete store and request: the sortedness part
applied to the day 1 / day 3 / day 2 store. -/
theorem c2_ordering_witness :
    ([postDay3, postDay2, postDay1] : List Post).Pairwise
      (fun u v => postBefore u v = true) :=
  c2_ordering.1 [postDay1, postDay3, postDay2]
    { page := 1, pageSize := 10, search := none, tags := none,
      published := none }
    { posts := [postDay3, postDay2, postDay1], total := 3, page := 1,
      pageSize := 10, totalPages := some 1 }
    (by rfl)

/-- C3: for every successful query response whose page size is at least one,
`totalPages` equals the ceiling of `total / pageSize`, and `totalPages` is
zero exactly when `total` is zero. -/
theorem c3_totalPages_ceil (store : List Post) (req : PostsReq)
    (resp : PostsResponse) (hps : 1 ≤ req.pageSize)
    (h : apiGetPosts store req = Except.ok resp) :
    resp.totalPages = some ⌈(resp.total : ℚ) / (req.pageSize : ℚ)⌉ ∧
      (resp.totalPages = some 0 ↔ resp.total = 0) := by
  simp only [apiGetPosts] at h
  split at h
  · exact absurd h (by simp)
  · rw [Except.ok.injEq] at h
    subst h
    refine ⟨jsCeilPages_eq_ceil _ _ hps, ?_⟩
    rw [jsCeilPages_eq_ceil _ _ hps]
    simp only [Option.some.injEq]
    exact ceil_div_eq_zero_iff _ _ hps

/-- Witness for C3 at the empty store with the default request. -/
theorem c3_totalPages_ceil_witness :
    emptyResp10.totalPages = some ⌈(emptyResp10.total : ℚ) / ((10 : Int) : ℚ)⌉ ∧
      (emptyResp10.totalPages = some 0 ↔ emptyResp10.total = 0) :=
  c3_totalPages_ceil [] defaultReq emptyResp10 (by simp [defaultReq]) rfl

/-! ## Mock engine slicing -/

theorem jsSlice_all (l : List Post) (h : l.length ≤ 10) : jsSlice l 0 10 = l := by
  unfold jsSlice jsSliceIdx
  rw [if_neg (by norm_num), if_neg (by norm_num)]
  norm_num
  exact h

theorem getMockPosts_posts_default (search : Option String) :
    (getMockPosts { page := 1, pageSize := 10, search := search,
                    tags := none }).posts =
      (if truthyStr search then
        mockPosts.filter (mockSearchMatches (jsToLower (search.getD "")))
      else mockPosts) := by
  unfold getMockPosts
  dsimp only
  have harith : ((1 : Int) - 1) * 10 = 0 := by norm_num
  rw [harith]
  have harith2 : (0 : Int) + 10 = 10 := by norm_num
  rw [harith2]
  rw [jsSlice_all]
  split
  · exact le_trans (List.length_filter_le _ _) (by norm_num [mockPosts])
  · norm_num [mockPosts]

/-- C1: on the mock query engine, with a non-empty search text a post
appears in the (unpaginated, untagged) result exactly when the search text
occurs as a case-insensitive substring of its title, of its content, or of
its excerpt; an absent or empty search text imposes no constraint. -/
theorem c1_search_filter :
    (∀ s : String, s ≠ "" → ∀ p : Post,
        (p ∈ (getMockPosts { page := 1, pageSize := 10, search := some s,
                             tags := none }).posts ↔
          p ∈ mockPosts ∧
            (ciOccurs s p.title ∨ ciOccurs s p.content ∨
              ∃ e, p.excerpt = some e ∧ ciOccurs s e))) ∧
      (∀ p : Post, p ∈ (getMockPosts { page := 1, pageSize := 10,
                                         search := none, tags := none }).posts ↔
        p ∈ mockPosts) ∧
      (∀ p : Post, p ∈ (getMockPosts { page := 1, pageSize := 10,
                                         search := some "", tags := none }).posts ↔
        p ∈ mockPosts) := by
  refine ⟨?_, ?_, ?_⟩
  · intro s hs p
    rw [getMockPosts_posts_default (some s)]
    rw [if_pos (by simp [truthyStr, hs])]
    rw [List.mem_filter]
    constructor
    · rintro ⟨hp, hm⟩
      refine ⟨hp, ?_⟩
      unfold mockSearchMatches at hm
      simp only [Bool.or_eq_true] at hm
      rcases hm with (h1 | h2) | h3
      · exact Or.inl ((ciContains_iff _ _).mp h1)
      · exact Or.inr (Or.inl ((ciContains_iff _ _).mp h2))
      · refine Or.inr (Or.inr ?_)
        cases he : p.excerpt with
        | none => rw [he] at h3; simp at h3
        | some e => rw [he] at h3; exact ⟨e, rfl, (ciContains_iff _ _).mp h3⟩
    · rintro ⟨hp, hm⟩
      refine ⟨hp, ?_⟩
      unfold mockSearchMatches
      simp only [Bool.or_eq_true]
      rcases hm with h1 | h2 | ⟨e, he, h3⟩
      · exact Or.inl (Or.inl ((ciContains_iff _ _).mpr h1))
      · exact Or.inl (Or.inr ((ciContains_iff _ _).mpr h2))
      · rw [he]
        exact Or.inr ((ciContains_iff _ _).mpr h3)
  · intro p
    rw [getMockPosts_posts_default none]
    rw [if_neg (by simp [truthyStr])]
  · intro p
    rw [getMockPosts_posts_default (some "")]
    rw [if_neg (by simp [truthyStr])]

/-- Witness for C1: the mixed-case search text `DESIGN` at the second
fixture post. -/
theorem c1_search_filter_witness :
    ("DESIGN" : String) ≠ "" ∧
      (mockPost2 ∈ (getMockPosts { page := 1, pageSize := 10,
                                     search := some "DESIGN", tags := none }).posts ↔
        mockPost2 ∈ mockPosts ∧
          (ciOccurs "DESIGN" mockPost2.title ∨
            ciOccurs "DESIGN" mockPost2.content ∨
              ∃ e, mockPost2.excerpt = some e ∧ ciOccurs "DESIGN" e)) :=
  ⟨by decide, c1_search_filter.1 "DESIGN" (by decide) mockPost2⟩

/-- C4 counterexample: on a one-post store, the request with `pageSize = 0`
is neither rejected nor clamped to a positive default — the engine proceeds
and answers with the non-positive `pageSize` itself, the whole store
(Mongo `limit(0)` imposes no limit), and a non-finite `totalPages`. -/
theorem c4_counterexample :
    apiGetPosts [postDay1] zeroPageSizeReq =
      Except.ok { posts := [postDay1], total := 1, page := 1, pageSize := 0,
                  totalPages := none } ∧
      zeroPageSizeReq.pageSize ≤ 0 :=
  ⟨rfl, by decide⟩

/-- C4 (amended): the query engine performs no validation of `page` or
`pageSize`. A request with `pageSize = 0` (and `page = 1`) proceeds with
the value as given: `limit(0)` imposes no limit, every matching post is
returned and `totalPages` is non-finite. A request with `page ≤ 0` and a
positive `pageSize` makes `skip` negative and the handler fails with the
500 error response instead of normalizing the page. -/
theorem c4_amended_no_validation :
    (∀ store : List Post,
        apiGetPosts store zeroPageSizeReq =
          Except.ok
            { posts := sortPosts (store.filter (matchesQuery zeroPageSizeReq)),
              total := (store.filter (matchesQuery zeroPageSizeReq)).length,
              page := 1, pageSize := 0, totalPages := none }) ∧
      (∀ (store : List Post) (page pageSize : Int), page ≤ 0 → 1 ≤ pageSize →
          apiGetPosts store { page := page, pageSize := pageSize,
                              search := none, tags := none,
                              published := none } =
            Except.error ()) := by
  constructor
  · intro store
    unfold apiGetPosts
    rw [if_neg (by simp [zeroPageSizeReq])]
    simp [zeroPageSizeReq, jsCeilPages]
  · intro store page pageSize hpage hps
    unfold apiGetPosts
    dsimp only
    rw [if_pos]
    exact mul_neg_of_neg_of_pos (by omega) (by omega)

/-- Witness for C4 (amended): a concrete `page = 0` request is answered
with the error response. -/
theorem c4_amended_no_validation_witness :
    apiGetPosts [postDay1] { page := 0, pageSize := 10, search := none,
                             tags := none, published := none } =
      Except.error () :=
  c4_amended_no_validation.2 [postDay1] 0 10 (by norm_num) (by norm_num)

/-- C5 evaluation at the failing input: the stored post was first published
on day 1; an update that re-submits `published: true` at day 5 re-stamps
`published_at` to day 5. The guard `!updateData.published_at` inspects the
freshly built update object — which never carries `published_at` at that
point — instead of the stored post, so the stamp is not limited to the
first publish transition. -/
theorem c5_republish_restamps :
    (updatePost storedPublishedPost republishReq 5).published_at = some 5 ∧
      storedPublishedPost.published_at = some 1 :=
  ⟨rfl, rfl⟩

/-- C6: `published_at` is monotonic under update — once the stored post has
a non-null `published_at`, every `PUT` (in particular an unpublish that sets
`published` to false) leaves it non-null: no `$set` path ever writes null
into `published_at`. -/
theorem c6_published_at_monotonic (p : Post) (r : UpdateReq) (now t : Nat)
    (h : p.published_at = some t) :
    ∃ t2, (updatePost p r now).published_at = some t2 := by
  unfold updatePost applyUpdate
  dsimp only
  cases hu : (buildUpdateData r now).published_at with
  | some t2 => exact ⟨t2, rfl⟩
  | none => exact ⟨t, h⟩

/-- Witness for C6: unpublishing the day-1 post at day 7 keeps a non-null
`published_at`. -/
theorem c6_published_at_monotonic_witness :
    ∃ t2, (updatePost storedPublishedPost unpublishReq 7).published_at =
      some t2 :=
  c6_published_at_monotonic storedPublishedPost unpublishReq 7 1 rfl

/-- C10: every successfully created post carries one single creation
timestamp: `created_at = updated_at = now`, `published_at` is non-null
exactly when `published` is true, and when published the stamp also equals
`now`. -/
theorem c10_creation_timestamps (r : CreateReq) (now : Nat) (p : Post)
    (h : createPost r now = some p) :
    (p.published_at ≠ none ↔ p.published = true) ∧
      p.created_at = now ∧ p.updated_at = now ∧
      (p.published = true → p.published_at = some now) := by
  unfold createPost at h
  split at h
  · exact absurd h (by simp)
  · rw [Option.some.injEq] at h
    subst h
    dsimp only
    cases hb : r.published.getD false <;> simp [hb]

/-- Witness for C10: the concrete published creation at timestamp 4. -/
theorem c10_creation_timestamps_witness :
    (createdPostSimple.published_at ≠ none ↔
        createdPostSimple.published = true) ∧
      createdPostSimple.created_at = 4 ∧ createdPostSimple.updated_at = 4 ∧
      (createdPostSimple.published = true →
        createdPostSimple.published_at = some 4) :=
  c10_creation_timestamps createReqSimple 4 createdPostSimple rfl

/-- C9 evaluation at the failing inputs: on a network failure the read
fallbacks of `getAllPosts` and `getPostBySlug` do not return a
fixture-computed result — their path calls `getMockPosts` with no argument,
which throws a `TypeError` while destructuring `undefined` — while
`getPosts` alone reaches the fixture dataset. -/
theorem c9_fallback_throws :
    getAllPosts none = Except.error JsError.typeError ∧
      getPostBySlug "art-of-database-design" none =
        Except.error JsError.typeError ∧
      (∀ q : BlogPostQuery, getPosts q none = getMockPosts q) :=
  ⟨rfl, rfl, fun _ => rfl⟩

/-- C7 counterexample: the final `trim()` of `generateSlug` removes only
whitespace, never hyphens: the input `"-"` yields the slug `"-"`, which
begins (and ends) with a hyphen — contradicting both the claimed
trim-hyphens step and its claimed consequence. -/
theorem c7_counterexample :
    generateSlug "-" = "-" ∧ (generateSlug "-").toList.head? = some '-' :=
  ⟨rfl, rfl⟩

/-- C7 (amended): `generateSlug` lowercases the input, removes every
character that is not a lowercase letter, digit, whitespace or hyphen,
collapses whitespace runs into single hyphens and collapses hyphen runs —
and then trims leading/trailing whitespace only, which at that point is a
no-op (no whitespace survives the collapsing), so the result may begin or
end with a hyphen. -/
theorem c7_amended_trim_is_noop (title : String) :
    generateSlug title =
      String.mk (collapseRuns isDash '-' (collapseRuns jsWs '-'
        ((title.toList.map jsToLowerChar).filter keepSlugChar))) :=
  generateSlug_eq_core title

/-- C8: `generateSlug` is idempotent on every input string, and the two
reference evaluations hold. -/
theorem c8_generateSlug_idempotent :
    (∀ x : String, generateSlug (generateSlug x) = generateSlug x) ∧
      generateSlug "Hello, World!  2024" = "hello-world-2024" ∧
      generateSlug "" = "" :=
  ⟨generateSlug_idem, rfl, rfl⟩
